import Mathlib

/-!
Verification of the RezumAI chat client's context-assembly and persistence
layer, embedded from `src/frontend/pages/index.js`.

Modelling conventions:
* JS arrays become `List`, JS objects become structures, machine numbers
  become `Nat` (no arithmetic near overflow occurs in the modelled code).
* `fetch` + `res.json()` at each call site is modelled by an explicit
  outcome value (`FetchOutcome` for `/chat`, `UploadResponse` for
  `/upload-pdf`): the code only ever inspects `res.ok`, the parsed fields
  (`data.reply`, `data.detail`, `data.filename`, `data.extracted_text`),
  and — when the promise rejects or the body fails to parse — the thrown
  exception's `message`.  Each constructor corresponds to one of those
  branches of the source.
* `localStorage` values under one key are modelled as
  `Option (Option α)`: the outer `none` is an absent key
  (`getItem` returns `null`), `some none` is a stored string on which
  `JSON.parse` throws (caught by the source's `try/catch`), and
  `some (some v)` is a stored serialization of `v`
  (`JSON.parse ∘ JSON.stringify` round-trips the plain data involved).
* React state updates (`setX`) together with the persistence `useEffect`s
  keyed on that state are modelled as one atomic step, reflecting the
  single-threaded event model: each event callback (and the effects it
  triggers) runs to completion before the next event is processed.
-/

/-- One conversation entry, source shape `{ role, text }`.  The source
stores the role as a free string: `'user'`, `'model'` (successful reply)
or `'error'`. -/
structure Turn where
  role : String
  text : String
deriving DecidableEq, Repr

/-- One entry of the `uploadedPDFs` state array, source shape
`{ filename, text, size }` (built at `index.js:80-84`). -/
structure UploadedPDF where
  filename : String
  text : String
  size : Nat
deriving DecidableEq, Repr

/-- A member of the `FileList` passed to `handleFileUpload`; the code reads
`file.type`, `file.name` and `file.size`. -/
structure JSFile where
  name : String
  type : String
  size : Nat
deriving DecidableEq, Repr

/-- Outcome of one `fetch('/upload-pdf')` + `res.json()` inside the upload
loop (`index.js:72-90`): `ok` is `res.ok` with parsed `data.filename` /
`data.extracted_text`; `err` is `!res.ok` with `data.detail`; `exn` is a
thrown exception caught at `index.js:88`. -/
inductive UploadResponse where
  | ok (filename : String) (extracted_text : String)
  | err (detail : String)
  | exn (message : String)
deriving DecidableEq, Repr

/-- Outcome of the `fetch('/chat')` + `res.json()` pair in `send`
(`index.js:139-148`): `ok` is `res.ok` with parsed `data.reply`;
`httpError` is `!res.ok` with optional `data.detail` and
`JSON.stringify(data)` as fallback body text; `exn` is any exception
(network failure or malformed body) caught at `index.js:160`. -/
inductive FetchOutcome where
  | ok (reply : String)
  | httpError (detail : Option String) (body : String)
  | exn (message : String)
deriving DecidableEq, Repr

/-- The JSON body assembled at `index.js:142-146`.  `pdf_context` is
`Option String`: the source puts JS `null` there when no PDFs are stored,
modelled as `none`. -/
structure ChatRequest where
  message : String
  conversation_history : List Turn
  pdf_context : Option String
deriving DecidableEq, Repr

/-- JS `String.prototype.trim` (`message.trim()` at `index.js:121/124`),
modelled on the underlying character list: leading and trailing
whitespace characters are removed (whitespace per `Char.isWhitespace`). -/
def jsTrim (s : String) : String :=
  ⟨((s.data.dropWhile Char.isWhitespace).reverse.dropWhile
      Char.isWhitespace).reverse⟩

/-- JS `data.detail || fallback` (`index.js:157`): `||` falls through to
the fallback when `detail` is absent (`none`) or falsy (the empty
string). -/
def jsOrElse (detail : Option String) (fallback : String) : String :=
  match detail with
  | some d => if d = "" then fallback else d
  | none => fallback

/-- Document-context assembly (`index.js:132-136`):
`uploadedPDFs.length > 0 ? uploadedPDFs.map((pdf, idx) =>`
`` `\n=== PDF ${idx + 1}: ${pdf.filename} ===\n${pdf.text}` ``
`).join('\n\n') : null`. -/
def pdfContext (uploadedPDFs : List UploadedPDF) : Option String :=
  if uploadedPDFs.length > 0 then
    some (String.intercalate "\n\n"
      (uploadedPDFs.enum.map (fun p =>
        "\n=== PDF " ++ toString (p.1 + 1) ++ ": " ++ p.2.filename
          ++ " ===\n" ++ p.2.text)))
  else none

/-- The `send` handler (`index.js:120-169`) as a pure function of the
state it reads and the network outcome.  Returns the new `conversation`
array and the request body that was posted (`none` when the blank-message
guard at `index.js:121` returned early and no request was issued). -/
def send (conversation : List Turn) (uploadedPDFs : List UploadedPDF)
    (message : String) (outcome : FetchOutcome) :
    List Turn × Option ChatRequest :=
  if jsTrim message = "" then (conversation, none)
  else
    let userMessage := jsTrim message
    let newConversation := conversation ++ [{ role := "user", text := userMessage }]
    let req : ChatRequest :=
      { message := userMessage
        conversation_history := conversation
        pdf_context := pdfContext uploadedPDFs }
    match outcome with
    | .ok reply =>
        (newConversation ++ [{ role := "model", text := reply }], some req)
    | .httpError detail body =>
        (newConversation
          ++ [{ role := "error", text := "Error: " ++ jsOrElse detail body }],
         some req)
    | .exn m =>
        (newConversation
          ++ [{ role := "error", text := "Request failed: " ++ m }],
         some req)

/-- The spec's three-role vocabulary for turns. -/
inductive SpecRole where
  | user
  | assistant
  | error
deriving DecidableEq, Repr

/-- Role classification exactly as the renderer does it
(`index.js:288-296`): `'user'` renders as the user's message, `'error'`
as an error, and any other tag as the AI (assistant) message.  This is
the correspondence between the source's free role strings and the spec's
`user | assistant | error` vocabulary; in particular the source tag
`'model'` is the spec's `assistant`. -/
def classifyRole (role : String) : SpecRole :=
  if role = "user" then .user
  else if role = "error" then .error
  else .assistant

/-- Errors surfaced by the two `alert` guards of `handleFileUpload`:
`capacityExceeded` is the `alert('Maximum 5 PDFs allowed. ...')` early
return at `index.js:52-55`, `onlyPDFs` the
`alert('Please upload only PDF files')` early return at
`index.js:60-63`. -/
inductive UploadError where
  | capacityExceeded
  | onlyPDFs
deriving DecidableEq, Repr

/-- One iteration of the upload loop (`index.js:67-91`): a successful
response appends `{ filename: data.filename, text: data.extracted_text,`
`size: file.size }` to the store; a failed response or a thrown exception
only alerts and leaves the store as is. -/
def uploadStep (respond : JSFile → UploadResponse)
    (acc : List UploadedPDF) (file : JSFile) : List UploadedPDF :=
  match respond file with
  | .ok filename extracted_text =>
      acc ++ [{ filename := filename, text := extracted_text, size := file.size }]
  | .err _ => acc
  | .exn _ => acc

/-- The `handleFileUpload` handler (`index.js:48-94`) as a function of the
current store, the selected files, and the per-file server behaviour
`respond`.  Returns the new store and the guard error, if any; on a guard
error the function returns before any upload is attempted, so the store
is returned unchanged and `respond` is never consulted. -/
def handleFileUpload (uploadedPDFs : List UploadedPDF) (files : List JSFile)
    (respond : JSFile → UploadResponse) :
    List UploadedPDF × Option UploadError :=
  if uploadedPDFs.length + files.length > 5 then
    (uploadedPDFs, some .capacityExceeded)
  else
    let pdfFiles := files.filter (fun file => file.type = "application/pdf")
    if pdfFiles.length = 0 then (uploadedPDFs, some .onlyPDFs)
    else (pdfFiles.foldl (uploadStep respond) uploadedPDFs, none)

/-- `removePDF` (`index.js:96-98`):
`setUploadedPDFs(prev => prev.filter((_, i) => i !== index))`. -/
def removePDF (uploadedPDFs : List UploadedPDF) (index : Nat) :
    List UploadedPDF :=
  (uploadedPDFs.enum.filter (fun p => p.1 ≠ index)).map Prod.snd

/-- Contents of one `localStorage` key: `none` = key absent, `some none`
= present but `JSON.parse` throws on it, `some (some v)` = present and
parses to `v`. -/
abbrev StoredKey (α : Type) : Type := Option (Option α)

/-- Loading the conversation on mount (`index.js:13-20`): absent key
leaves the initial `[]`; a parse failure is caught (`console.error`) and
also leaves `[]`; otherwise the parsed sequence is installed. -/
def loadConversation (saved : StoredKey (List Turn)) : List Turn :=
  match saved with
  | none => []
  | some none => []
  | some (some turns) => turns

/-- Loading the PDF store on mount (`index.js:22-29`), same shape as
`loadConversation`. -/
def loadPDFs (saved : StoredKey (List UploadedPDF)) : List UploadedPDF :=
  match saved with
  | none => []
  | some none => []
  | some (some docs) => docs

/-- The conversation persistence effect (`index.js:33-37`): writes the
serialized conversation when it is non-empty, otherwise leaves the stored
key untouched. -/
def persistConversation (conversation : List Turn)
    (stored : StoredKey (List Turn)) : StoredKey (List Turn) :=
  if conversation.length > 0 then some (some conversation) else stored

/-- The PDF persistence effect (`index.js:40-46`): writes the serialized
store when non-empty, otherwise removes the key. -/
def persistPDFs (uploadedPDFs : List UploadedPDF)
    (_stored : StoredKey (List UploadedPDF)) :
    StoredKey (List UploadedPDF) :=
  if uploadedPDFs.length > 0 then some (some uploadedPDFs) else none

/-- The two durable keys, `rezumai_conversation` and `rezumai_pdfs`. -/
structure Persisted where
  conversationKey : StoredKey (List Turn)
  pdfsKey : StoredKey (List UploadedPDF)
deriving DecidableEq, Repr

/-- The client state relevant to the stores: the two React state arrays
plus the durable storage they are mirrored into. -/
structure Session where
  conversation : List Turn
  uploadedPDFs : List UploadedPDF
  storage : Persisted
deriving DecidableEq, Repr

/-- Mount (`index.js:12-46`): both keys are loaded, then each
persistence effect runs on the loaded value once the state has settled. -/
def initSession (p : Persisted) : Session :=
  let conversation := loadConversation p.conversationKey
  let uploadedPDFs := loadPDFs p.pdfsKey
  { conversation := conversation
    uploadedPDFs := uploadedPDFs
    storage :=
      { conversationKey := persistConversation conversation p.conversationKey
        pdfsKey := persistPDFs uploadedPDFs p.pdfsKey } }

/-- The user-triggered operations that mutate the stores. -/
inductive SessionOp where
  | sendOp (message : String) (outcome : FetchOutcome)
  | clearConv
  | uploadOp (files : List JSFile) (respond : JSFile → UploadResponse)
  | removeOp (index : Nat)
  | clearPDFs

/-- One event callback run to completion, with the persistence effects it
triggers: `sendOp` is `send` (`index.js:120-169`) followed by the
conversation effect — on a blank draft the guard at `index.js:121`
returns before any state update, so the whole event is a no-op and no
effect fires; `clearConv` is `clearConversation`
(`index.js:171-174`, `removeItem` then the effect on the now-empty
state); `uploadOp` is `handleFileUpload` followed by the PDF effect when
the store was actually touched; `removeOp` and `clearPDFs` likewise
(`index.js:96-98`, `index.js:176-179`). -/
def applyOp (s : Session) (op : SessionOp) : Session :=
  match op with
  | .sendOp message outcome =>
      if jsTrim message = "" then s
      else
        let conversation := (send s.conversation s.uploadedPDFs message outcome).1
        { s with
          conversation := conversation
          storage :=
            { s.storage with
              conversationKey :=
                persistConversation conversation s.storage.conversationKey } }
  | .clearConv =>
      { s with
        conversation := []
        storage :=
          { s.storage with conversationKey := persistConversation [] none } }
  | .uploadOp files respond =>
      let result := handleFileUpload s.uploadedPDFs files respond
      match result.2 with
      | some _ => s
      | none =>
          { s with
            uploadedPDFs := result.1
            storage :=
              { s.storage with
                pdfsKey := persistPDFs result.1 s.storage.pdfsKey } }
  | .removeOp index =>
      let uploadedPDFs := removePDF s.uploadedPDFs index
      { s with
        uploadedPDFs := uploadedPDFs
        storage :=
          { s.storage with
            pdfsKey := persistPDFs uploadedPDFs s.storage.pdfsKey } }
  | .clearPDFs =>
      { s with
        uploadedPDFs := []
        storage := { s.storage with pdfsKey := persistPDFs [] none } }

/-- A whole client session: mount from the given storage contents, then
run the user's operations in order. -/
def runOps (p : Persisted) (ops : List SessionOp) : Session :=
  ops.foldl applyOp (initSession p)

/-- Modelled from the spec, for comparison with the source's behaviour:
the prior-turn sequence the Context Assembler is specified to send
upstream — "sequence of Turns with role ∈ \x7buser, assistant\x7d only —
error turns are excluded from upstream context". -/
def specUpstreamHistory (conversation : List Turn) : List Turn :=
  conversation.filter (fun t => !(classifyRole t.role == SpecRole.error))

/-- Whether a `FetchOutcome` is one of the two failure paths of `send`
(`!res.ok` at `index.js:153` or the `catch` at `index.js:160`). -/
def FetchOutcome.isFail : FetchOutcome → Bool
  | .ok _ => false
  | .httpError _ _ => true
  | .exn _ => true

/-- The text of the error turn `send` appends on the corresponding
failure path (`index.js:155-158` and `index.js:162-165`). -/
def failText : FetchOutcome → String
  | .ok reply => reply
  | .httpError detail body => "Error: " ++ jsOrElse detail body
  | .exn m => "Request failed: " ++ m

/-- The underlying failure detail: `data.detail` with
`JSON.stringify(data)` fallback on an HTTP error, the exception message
otherwise. -/
def failDetail : FetchOutcome → String
  | .ok reply => reply
  | .httpError detail body => jsOrElse detail body
  | .exn m => m

/-- The pair of turns one completed send contributes to the conversation:
nothing on a blank draft, otherwise the user turn followed immediately by
the reply or error turn. -/
def sendTurns (message : String) (outcome : FetchOutcome) : List Turn :=
  if jsTrim message = "" then []
  else
    [⟨"user", jsTrim message⟩,
     match outcome with
     | .ok reply => ⟨"model", reply⟩
     | .httpError detail body => ⟨"error", "Error: " ++ jsOrElse detail body⟩
     | .exn m => ⟨"error", "Request failed: " ++ m⟩]

/-- A sequence of send operations run to completion one after another
(the UI disables the send control while a request is in flight,
`index.js:336`, so sends never overlap). -/
def sendMany (conversation : List Turn) (uploadedPDFs : List UploadedPDF)
    (ops : List (String × FetchOutcome)) : List Turn :=
  ops.foldl (fun conv op => (send conv uploadedPDFs op.1 op.2).1) conversation

/-- A fixed upload backend used in concrete instances: every file
uploads successfully with a fixed extraction. -/
def respondAlwaysOk : JSFile → UploadResponse :=
  fun file => .ok file.name "extracted"

/-- The labeled block `pdfContext` emits for the document at 0-based
position `i` (the body of the `map` at `index.js:133-135`). -/
def contextBlock (i : Nat) (d : UploadedPDF) : String :=
  "\n=== PDF " ++ toString (i + 1) ++ ": " ++ d.filename ++ " ===\n" ++ d.text

/-- Explicit block-by-block characterization of the assembled context:
the blocks in store order, consecutive blocks joined by `"\n\n"`. -/
def contextBlocks : Nat → List UploadedPDF → String
  | _, [] => ""
  | i, [d] => contextBlock i d
  | i, d :: d2 :: ds => contextBlock i d ++ "\n\n" ++ contextBlocks (i + 1) (d2 :: ds)

/-- Substring containment, on the underlying character lists. -/
def strInfix (a b : String) : Prop := a.data <:+: b.data

instance (a b : String) : Decidable (strInfix a b) :=
  List.decidableInfix a.data b.data

theorem strInfix_appendL {a b : String} (c : String) (h : strInfix a b) :
    strInfix a (b ++ c) := by
  refine List.IsInfix.trans h ?_
  exact ⟨[], c.data, by simp⟩

theorem strInfix_appendR {a c : String} (b : String) (h : strInfix a c) :
    strInfix a (b ++ c) := by
  refine List.IsInfix.trans h ?_
  exact ⟨b.data, [], by simp⟩

theorem intercalate_go_append (sep : String) :
    ∀ (l : List String) (a b : String),
      String.intercalate.go (a ++ b) sep l
        = a ++ String.intercalate.go b sep l := by
  intro l
  induction l with
  | nil => intro a b; rfl
  | cons x xs ih =>
      intro a b
      have h1 : String.intercalate.go (a ++ b) sep (x :: xs)
          = String.intercalate.go (a ++ b ++ sep ++ x) sep xs := rfl
      have h2 : a ++ String.intercalate.go b sep (x :: xs)
          = a ++ String.intercalate.go (b ++ sep ++ x) sep xs := rfl
      rw [h1, h2, ← ih]
      congr 1
      simp [String.append_assoc]

theorem intercalate_cons_cons (sep a b : String) (l : List String) :
    String.intercalate sep (a :: b :: l)
      = a ++ sep ++ String.intercalate sep (b :: l) := by
  have h1 : String.intercalate sep (a :: b :: l)
      = String.intercalate.go ((a ++ sep) ++ b) sep l := rfl
  have h2 : String.intercalate sep (b :: l) = String.intercalate.go b sep l := rfl
  rw [h1, h2, intercalate_go_append]

theorem intercalate_contextBlocks :
    ∀ (ds : List UploadedPDF) (i : Nat), ds ≠ [] →
      String.intercalate "\n\n"
        ((List.enumFrom i ds).map fun p => contextBlock p.1 p.2)
        = contextBlocks i ds := by
  intro ds
  induction ds with
  | nil => intro i h; exact absurd rfl h
  | cons d rest ih =>
      intro i _
      cases rest with
      | nil => rfl
      | cons d2 ds2 =>
          have hmap : (List.enumFrom i (d :: d2 :: ds2)).map
              (fun p => contextBlock p.1 p.2)
              = contextBlock i d :: contextBlock (i + 1) d2
                :: (List.enumFrom (i + 2) ds2).map (fun p => contextBlock p.1 p.2) := by
            simp [List.enumFrom]
          rw [hmap, intercalate_cons_cons]
          have hmap2 : contextBlock (i + 1) d2
              :: (List.enumFrom (i + 2) ds2).map (fun p => contextBlock p.1 p.2)
              = (List.enumFrom (i + 1) (d2 :: ds2)).map
                  (fun p => contextBlock p.1 p.2) := by
            simp [List.enumFrom]
          rw [hmap2, ih (i + 1) (List.cons_ne_nil d2 ds2)]
          rfl

theorem pdfContext_eq_contextBlocks (ds : List UploadedPDF) (h : ds ≠ []) :
    pdfContext ds = some (contextBlocks 0 ds) := by
  have hlen : ds.length > 0 := List.length_pos.mpr h
  unfold pdfContext
  rw [if_pos hlen]
  congr 1
  rw [List.enum_eq_enumFrom]
  exact intercalate_contextBlocks ds 0 h

theorem contextBlocks_infix :
    ∀ (ds : List UploadedPDF) (i : Nat) (d : UploadedPDF), d ∈ ds →
      strInfix d.filename (contextBlocks i ds)
        ∧ strInfix d.text (contextBlocks i ds) := by
  intro ds
  induction ds with
  | nil => intro i d h; cases h
  | cons d0 rest ih =>
      intro i d hmem
      have hblock : strInfix d.filename (contextBlock i d)
          ∧ strInfix d.text (contextBlock i d) := by
        constructor
        · exact ⟨("\n=== PDF " ++ toString (i + 1) ++ ": ").data,
            (" ===\n" ++ d.text).data, by simp [contextBlock]⟩
        · exact ⟨("\n=== PDF " ++ toString (i + 1) ++ ": " ++ d.filename
            ++ " ===\n").data, [], by simp [contextBlock]⟩
      cases rest with
      | nil =>
          have hd : d = d0 := by
            cases hmem with
            | head => rfl
            | tail _ h => cases h
          subst hd
          exact hblock
      | cons d2 ds2 =>
          show strInfix d.filename (contextBlock i d0 ++ "\n\n"
              ++ contextBlocks (i + 1) (d2 :: ds2)) ∧ _
          cases hmem with
          | head =>
              exact ⟨strInfix_appendL _ (strInfix_appendL _ hblock.1),
                strInfix_appendL _ (strInfix_appendL _ hblock.2)⟩
          | tail _ htail =>
              have hrest := ih (i + 1) d htail
              exact ⟨strInfix_appendR _ hrest.1, strInfix_appendR _ hrest.2⟩

/-- Claim C1: a send whose completion call succeeds appends, right after
the user turn, a reply turn whose text is the upstream-provided reply
and whose role is the assistant role — the source tags it `'model'`,
which is exactly the tag the renderer classifies as the AI/assistant
message; Scenario A: empty conversation, send `"Hello"`, upstream reply
`"Hi!"` leaves the store at `[(user, "Hello"), (assistant, "Hi!")]`
under that classification. -/
theorem C1_success_appends_assistant_reply (conversation : List Turn)
    (uploadedPDFs : List UploadedPDF) (message reply : String)
    (h : jsTrim message ≠ "") :
    (send conversation uploadedPDFs message (.ok reply)).1
      = conversation ++ [⟨"user", jsTrim message⟩, ⟨"model", reply⟩]
    ∧ classifyRole "model" = SpecRole.assistant
    ∧ ((send [] [] "Hello" (.ok "Hi!")).1.map
        (fun t => (classifyRole t.role, t.text)))
      = [(SpecRole.user, "Hello"), (SpecRole.assistant, "Hi!")] := by
  refine ⟨?_, by decide, by decide⟩
  unfold send
  rw [if_neg h]
  simp

/-- Witness for C1 at a concrete input. -/
theorem C1_success_appends_assistant_reply_witness :
    (send [⟨"user", "x"⟩] [] " Hello " (.ok "Hi!")).1
      = [⟨"user", "x"⟩] ++ [⟨"user", jsTrim " Hello "⟩, ⟨"model", "Hi!"⟩]
    ∧ classifyRole "model" = SpecRole.assistant
    ∧ ((send [] [] "Hello" (.ok "Hi!")).1.map
        (fun t => (classifyRole t.role, t.text)))
      = [(SpecRole.user, "Hello"), (SpecRole.assistant, "Hi!")] :=
  C1_success_appends_assistant_reply [⟨"user", "x"⟩] [] " Hello " "Hi!" (by decide)

/-- Claim C2 counterexample: with an error turn in the prior history, the
outbound request carries the full history unchanged — the error turn is
not excluded, contrary to the claim's filtered sequence. -/
theorem C2_counterexample :
    (send [⟨"user", "a"⟩, ⟨"error", "boom"⟩] [] "next" (.ok "r")).2
      = some ⟨"next", [⟨"user", "a"⟩, ⟨"error", "boom"⟩], none⟩
    ∧ specUpstreamHistory [⟨"user", "a"⟩, ⟨"error", "boom"⟩]
      ≠ [⟨"user", "a"⟩, ⟨"error", "boom"⟩] := by decide

/-- Claim C2 (amended): the prior-turn sequence included in the outbound
completion request is the entire prior conversation history, in original
order — turns of every role, error turns included; no filtering is
performed. -/
theorem C2_history_sent_unfiltered (conversation : List Turn)
    (uploadedPDFs : List UploadedPDF) (message : String)
    (outcome : FetchOutcome) (h : jsTrim message ≠ "") :
    (send conversation uploadedPDFs message outcome).2
      = some ⟨jsTrim message, conversation, pdfContext uploadedPDFs⟩ := by
  unfold send
  rw [if_neg h]
  cases outcome <;> rfl

/-- Witness for C2 at a concrete input. -/
theorem C2_history_sent_unfiltered_witness :
    (send [⟨"user", "a"⟩, ⟨"error", "boom"⟩] [] "next" (.ok "r")).2
      = some ⟨jsTrim "next", [⟨"user", "a"⟩, ⟨"error", "boom"⟩],
          pdfContext []⟩ :=
  C2_history_sent_unfiltered [⟨"user", "a"⟩, ⟨"error", "boom"⟩] [] "next"
    (.ok "r") (by decide)

/-- Claim C4 counterexample: on the two documents of Scenario D the
assembled context is not the claimed string — each block starts with an
extra newline and is headed `=== PDF i: name ===`, not
`=== Document i: name ===`, so three newline characters separate one
document's text from the next header. -/
theorem C4_counterexample :
    pdfContext [⟨"A.pdf", "textA", 1⟩, ⟨"B.pdf", "textB", 2⟩]
      ≠ some "=== Document 1: A.pdf ===\ntextA\n\n=== Document 2: B.pdf ===\ntextB"
    ∧ pdfContext [⟨"A.pdf", "textA", 1⟩, ⟨"B.pdf", "textB", 2⟩]
      = some "\n=== PDF 1: A.pdf ===\ntextA\n\n\n=== PDF 2: B.pdf ===\ntextB" := by
  decide

/-- Claim C4 (amended): for every non-empty Document Store the assembled
context equals the concatenation, in store order, of one labeled block
per document — each block a newline, the header
`=== PDF i: name ===` with 1-based position `i`, a newline, then the
extracted text — consecutive blocks joined by `"\n\n"` (so, because each
block begins with its own newline, three newline characters stand
between a document's text and the next header); on Scenario D's two
documents the context is
`"\n=== PDF 1: A.pdf ===\ntextA\n\n\n=== PDF 2: B.pdf ===\ntextB"`. -/
theorem C4_context_block_format (ds : List UploadedPDF) (h : ds ≠ []) :
    pdfContext ds = some (contextBlocks 0 ds)
    ∧ pdfContext [⟨"A.pdf", "textA", 1⟩, ⟨"B.pdf", "textB", 2⟩]
      = some ("\n=== PDF 1: A.pdf ===\ntextA" ++ "\n\n"
          ++ "\n=== PDF 2: B.pdf ===\ntextB") :=
  ⟨pdfContext_eq_contextBlocks ds h, by decide⟩

/-- Witness for C4 at a concrete input. -/
theorem C4_context_block_format_witness :
    pdfContext [⟨"C.pdf", "tc", 3⟩] = some (contextBlocks 0 [⟨"C.pdf", "tc", 3⟩])
    ∧ pdfContext [⟨"A.pdf", "textA", 1⟩, ⟨"B.pdf", "textB", 2⟩]
      = some ("\n=== PDF 1: A.pdf ===\ntextA" ++ "\n\n"
          ++ "\n=== PDF 2: B.pdf ===\ntextB") :=
  C4_context_block_format [⟨"C.pdf", "tc", 3⟩] (by decide)

/-- Claim C5: the request's document-context field is present exactly
when the Document Store is non-empty — when the store is empty the field
is the absent value (the source's JS `null`, modelled `none`), never an
empty string — and when present it is the ordered block concatenation,
which contains each stored document's name and full text. -/
theorem C5_context_present_iff_nonempty (ds : List UploadedPDF) :
    (pdfContext ds = none ↔ ds = [])
    ∧ (ds ≠ [] →
        pdfContext ds = some (contextBlocks 0 ds)
        ∧ ∀ d ∈ ds, strInfix d.filename (contextBlocks 0 ds)
            ∧ strInfix d.text (contextBlocks 0 ds)) := by
  constructor
  · constructor
    · intro hnone
      by_contra hne
      rw [pdfContext_eq_contextBlocks ds hne] at hnone
      cases hnone
    · intro h
      subst h
      rfl
  · intro hne
    exact ⟨pdfContext_eq_contextBlocks ds hne,
      fun d hd => contextBlocks_infix ds 0 d hd⟩

/-- Witness for C5 at a concrete input. -/
theorem C5_context_present_iff_nonempty_witness :
    pdfContext [⟨"A.pdf", "textA", 1⟩]
      = some (contextBlocks 0 [⟨"A.pdf", "textA", 1⟩])
    ∧ strInfix "A.pdf" (contextBlocks 0 [⟨"A.pdf", "textA", 1⟩])
    ∧ strInfix "textA" (contextBlocks 0 [⟨"A.pdf", "textA", 1⟩]) :=
  ⟨((C5_context_present_iff_nonempty [⟨"A.pdf", "textA", 1⟩]).2 (by decide)).1,
   ((C5_context_present_iff_nonempty [⟨"A.pdf", "textA", 1⟩]).2 (by decide)).2
      ⟨"A.pdf", "textA", 1⟩ (by simp)⟩

theorem send_fst_eq (conversation : List Turn) (uploadedPDFs : List UploadedPDF)
    (message : String) (outcome : FetchOutcome) :
    (send conversation uploadedPDFs message outcome).1
      = conversation ++ sendTurns message outcome := by
  by_cases hb : jsTrim message = ""
  · simp [send, sendTurns, hb]
  · unfold send sendTurns
    rw [if_neg hb, if_neg hb]
    cases outcome <;> simp

theorem sendMany_eq (uploadedPDFs : List UploadedPDF) :
    ∀ (ops : List (String × FetchOutcome)) (conversation : List Turn),
      sendMany conversation uploadedPDFs ops
        = conversation ++ (ops.map (fun op => sendTurns op.1 op.2)).flatten := by
  intro ops
  induction ops with
  | nil => intro conversation; simp [sendMany]
  | cons op rest ih =>
      intro conversation
      have h1 : sendMany conversation uploadedPDFs (op :: rest)
          = sendMany (send conversation uploadedPDFs op.1 op.2).1 uploadedPDFs rest := rfl
      rw [h1, ih, send_fst_eq]
      simp

/-- Claim C6: a failing completion call (non-success HTTP status, network
failure, or malformed body) appends exactly one error turn, whose text
contains the underlying failure detail (`data.detail` or the serialized
body on an HTTP error, the exception message otherwise); no assistant
turn is added, and the user turn appended just before is still in place,
unaltered, directly preceding the error turn.  `send` is a total
function of the outcome, so no exception escapes the call's boundary. -/
theorem C6_failure_appends_single_error_turn (conversation : List Turn)
    (uploadedPDFs : List UploadedPDF) (message : String)
    (outcome : FetchOutcome) (h : jsTrim message ≠ "")
    (hfail : outcome.isFail = true) :
    (send conversation uploadedPDFs message outcome).1
      = conversation ++ [⟨"user", jsTrim message⟩, ⟨"error", failText outcome⟩]
    ∧ strInfix (failDetail outcome) (failText outcome)
    ∧ ((send conversation uploadedPDFs message outcome).1.countP
        (fun t => t.role == "error"))
      = conversation.countP (fun t => t.role == "error") + 1
    ∧ ∀ t ∈ (send conversation uploadedPDFs message outcome).1,
        classifyRole t.role = SpecRole.assistant → t ∈ conversation := by
  have heq : (send conversation uploadedPDFs message outcome).1
      = conversation ++ [⟨"user", jsTrim message⟩, ⟨"error", failText outcome⟩] := by
    cases outcome with
    | ok reply => simp [FetchOutcome.isFail] at hfail
    | httpError detail body =>
        rw [send_fst_eq]
        simp [sendTurns, h, failText]
    | exn m =>
        rw [send_fst_eq]
        simp [sendTurns, h, failText]
  have hinfix : strInfix (failDetail outcome) (failText outcome) := by
    cases outcome with
    | ok reply => simp [FetchOutcome.isFail] at hfail
    | httpError detail body =>
        exact ⟨("Error: ").data, [], by simp [failText, failDetail]⟩
    | exn m =>
        exact ⟨("Request failed: ").data, [], by simp [failText, failDetail]⟩
  refine ⟨heq, hinfix, ?_, ?_⟩
  · rw [heq, List.countP_append]
    have h1 : List.countP (fun t => t.role == "error")
        [(⟨"user", jsTrim message⟩ : Turn), ⟨"error", failText outcome⟩] = 1 := by
      simp [List.countP_cons]
    rw [h1]
  · intro t ht hcl
    rw [heq] at ht
    rcases List.mem_append.mp ht with hc | hm
    · exact hc
    · rcases List.mem_cons.mp hm with h1 | h2
      · subst h1
        exact absurd hcl (show ¬ classifyRole "user" = SpecRole.assistant by decide)
      · rcases List.mem_cons.mp h2 with h3 | h4
        · subst h3
          exact absurd hcl (show ¬ classifyRole "error" = SpecRole.assistant by decide)
        · cases h4

/-- Witness for C6 at a concrete input (Scenario C: HTTP 500 with a
detail message). -/
theorem C6_failure_appends_single_error_turn_witness :
    (send [] [] "Hi" (.httpError (some "Internal Server Error") "b")).1
      = [] ++ [⟨"user", jsTrim "Hi"⟩,
          ⟨"error", failText (.httpError (some "Internal Server Error") "b")⟩]
    ∧ strInfix (failDetail (.httpError (some "Internal Server Error") "b"))
        (failText (.httpError (some "Internal Server Error") "b"))
    ∧ ((send [] [] "Hi" (.httpError (some "Internal Server Error") "b")).1.countP
        (fun t => t.role == "error"))
      = ([] : List Turn).countP (fun t => t.role == "error") + 1 :=
  ⟨(C6_failure_appends_single_error_turn [] [] "Hi"
      (.httpError (some "Internal Server Error") "b") (by decide) (by decide)).1,
   (C6_failure_appends_single_error_turn [] [] "Hi"
      (.httpError (some "Internal Server Error") "b") (by decide) (by decide)).2.1,
   (C6_failure_appends_single_error_turn [] [] "Hi"
      (.httpError (some "Internal Server Error") "b") (by decide) (by decide)).2.2.1⟩

/-- Claim C7: each send appends its user turn first and its reply or
error turn immediately after it, so a sequence of completed sends leaves
the Conversation Store equal to the prior contents followed by each
send's pair of turns in chronological order (sends never overlap: the
send control is disabled while a request is in flight). -/
theorem C7_chronological_append_order (conversation : List Turn)
    (uploadedPDFs : List UploadedPDF) (message : String)
    (outcome : FetchOutcome) (ops : List (String × FetchOutcome)) :
    (send conversation uploadedPDFs message outcome).1
      = conversation ++ sendTurns message outcome
    ∧ sendMany conversation uploadedPDFs ops
      = conversation ++ (ops.map (fun op => sendTurns op.1 op.2)).flatten :=
  ⟨send_fst_eq conversation uploadedPDFs message outcome,
   sendMany_eq uploadedPDFs ops conversation⟩

theorem uploadStep_length (respond : JSFile → UploadResponse)
    (acc : List UploadedPDF) (file : JSFile) :
    (uploadStep respond acc file).length ≤ acc.length + 1 := by
  unfold uploadStep
  cases respond file <;> simp

theorem foldl_uploadStep_length (respond : JSFile → UploadResponse) :
    ∀ (files : List JSFile) (acc : List UploadedPDF),
      (files.foldl (uploadStep respond) acc).length ≤ acc.length + files.length := by
  intro files
  induction files with
  | nil => intro acc; simp
  | cons f fs ih =>
      intro acc
      have h1 : (f :: fs).foldl (uploadStep respond) acc
          = fs.foldl (uploadStep respond) (uploadStep respond acc f) := rfl
      rw [h1]
      have h2 := ih (uploadStep respond acc f)
      have h3 := uploadStep_length respond acc f
      simp only [List.length_cons]
      omega

theorem handleFileUpload_length_le (store : List UploadedPDF)
    (files : List JSFile) (respond : JSFile → UploadResponse)
    (h : store.length ≤ 5) :
    (handleFileUpload store files respond).1.length ≤ 5 := by
  unfold handleFileUpload
  by_cases hcap : store.length + files.length > 5
  · rw [if_pos hcap]
    exact h
  · rw [if_neg hcap]
    show (if (files.filter (fun file => file.type = "application/pdf")).length = 0
        then (store, some UploadError.onlyPDFs)
        else ((files.filter (fun file => file.type = "application/pdf")).foldl
          (uploadStep respond) store, none)).1.length ≤ 5
    by_cases hpdf :
        (files.filter (fun file => file.type = "application/pdf")).length = 0
    · rw [if_pos hpdf]
      exact h
    · rw [if_neg hpdf]
      have h1 := foldl_uploadStep_length respond
        (files.filter (fun file => file.type = "application/pdf")) store
      have h2 := List.length_filter_le
        (fun file => decide (file.type = "application/pdf")) files
      simp only at h1 h2 ⊢
      omega

theorem removePDF_length_le (uploadedPDFs : List UploadedPDF) (index : Nat) :
    (removePDF uploadedPDFs index).length ≤ uploadedPDFs.length := by
  unfold removePDF
  rw [List.length_map]
  calc (uploadedPDFs.enum.filter (fun p => p.1 ≠ index)).length
      ≤ uploadedPDFs.enum.length :=
        List.length_filter_le (fun p => decide (p.1 ≠ index)) uploadedPDFs.enum
    _ = uploadedPDFs.length := by
        rw [List.enum_eq_enumFrom, List.enumFrom_length]

theorem applyOp_pdfs_length_le (s : Session) (op : SessionOp)
    (h : s.uploadedPDFs.length ≤ 5) :
    (applyOp s op).uploadedPDFs.length ≤ 5 := by
  cases op with
  | sendOp message outcome =>
      by_cases hb : jsTrim message = ""
      · simpa [applyOp, hb] using h
      · simpa [applyOp, hb] using h
  | clearConv => simpa [applyOp] using h
  | uploadOp files respond =>
      rcases hres : handleFileUpload s.uploadedPDFs files respond with ⟨newPDFs, err⟩
      cases err with
      | none =>
          have hlen := handleFileUpload_length_le s.uploadedPDFs files respond h
          rw [hres] at hlen
          simpa [applyOp, hres] using hlen
      | some e => simpa [applyOp, hres] using h
  | removeOp index =>
      have := removePDF_length_le s.uploadedPDFs index
      simp only [applyOp]
      omega
  | clearPDFs => simp [applyOp]

theorem foldl_applyOp_pdfs_length_le :
    ∀ (ops : List SessionOp) (s : Session), s.uploadedPDFs.length ≤ 5 →
      (ops.foldl applyOp s).uploadedPDFs.length ≤ 5 := by
  intro ops
  induction ops with
  | nil => intro s h; exact h
  | cons op rest ih =>
      intro s h
      exact ih (applyOp s op) (applyOp_pdfs_length_le s op h)

/-- Claim C3: an upload for which the current document count plus the
number of files selected exceeds 5 is rejected with the capacity error
and zero side effects — the store (contents and order) is returned
unchanged and no upload is attempted (the result does not consult the
backend at all); and every state reachable by running operations from a
session whose PDF key starts absent keeps the Document Store at no more
than 5 documents. -/
theorem C3_capacity_limit
    (store : List UploadedPDF) (files : List JSFile)
    (respond : JSFile → UploadResponse) (s : Session)
    (k : StoredKey (List Turn)) (ops : List SessionOp)
    (hover : store.length + files.length > 5)
    (hs : s.uploadedPDFs.length ≤ 5) :
    handleFileUpload store files respond
      = (store, some UploadError.capacityExceeded)
    ∧ (ops.foldl applyOp s).uploadedPDFs.length ≤ 5
    ∧ (runOps ⟨k, none⟩ ops).uploadedPDFs.length ≤ 5 := by
  refine ⟨?_, foldl_applyOp_pdfs_length_le ops s hs, ?_⟩
  · unfold handleFileUpload
    rw [if_pos hover]
  · apply foldl_applyOp_pdfs_length_le
    show (loadPDFs none).length ≤ 5
    simp [loadPDFs]

/-- Witness for C3 at a concrete input (Scenario B: five stored
documents, one more file selected). -/
theorem C3_capacity_limit_witness :
    handleFileUpload
        [⟨"a", "t", 1⟩, ⟨"b", "t", 1⟩, ⟨"c", "t", 1⟩, ⟨"d", "t", 1⟩, ⟨"e", "t", 1⟩]
        [⟨"f.pdf", "application/pdf", 9⟩] respondAlwaysOk
      = ([⟨"a", "t", 1⟩, ⟨"b", "t", 1⟩, ⟨"c", "t", 1⟩, ⟨"d", "t", 1⟩, ⟨"e", "t", 1⟩],
         some UploadError.capacityExceeded)
    ∧ (([SessionOp.uploadOp [⟨"f.pdf", "application/pdf", 9⟩] respondAlwaysOk].foldl
          applyOp ⟨[], [], ⟨none, none⟩⟩).uploadedPDFs.length ≤ 5)
    ∧ ((runOps ⟨none, none⟩
          [SessionOp.uploadOp [⟨"f.pdf", "application/pdf", 9⟩]
            respondAlwaysOk]).uploadedPDFs.length ≤ 5) :=
  C3_capacity_limit
    [⟨"a", "t", 1⟩, ⟨"b", "t", 1⟩, ⟨"c", "t", 1⟩, ⟨"d", "t", 1⟩, ⟨"e", "t", 1⟩]
    [⟨"f.pdf", "application/pdf", 9⟩] respondAlwaysOk
    ⟨[], [], ⟨none, none⟩⟩ none
    [SessionOp.uploadOp [⟨"f.pdf", "application/pdf", 9⟩] respondAlwaysOk]
    (by decide) (by decide)

/-- Claim C8: `load` on initialization restores the last-persisted
sequence; an absent key or malformed persisted data leaves the store as
the empty sequence (the parse failure is caught, never propagated), for
both the Conversation Store and the Document Store — all six cases are
total function evaluations, so loading never crashes. -/
theorem C8_load_restores_or_empty (ts : List Turn) (ds : List UploadedPDF) :
    loadConversation (some (some ts)) = ts
    ∧ loadConversation none = []
    ∧ loadConversation (some none) = []
    ∧ loadPDFs (some (some ds)) = ds
    ∧ loadPDFs none = []
    ∧ loadPDFs (some none) = [] :=
  ⟨rfl, rfl, rfl, rfl, rfl, rfl⟩

theorem loadPDFs_persistPDFs (ds : List UploadedPDF)
    (k : StoredKey (List UploadedPDF)) :
    loadPDFs (persistPDFs ds k) = ds := by
  by_cases h : ds.length > 0
  · simp [persistPDFs, h, loadPDFs]
  · have hds : ds = [] := List.length_eq_zero.mp (by omega)
    subst hds
    simp [persistPDFs, loadPDFs]

theorem loadConversation_persistConversation (ts : List Turn)
    (k : StoredKey (List Turn)) :
    loadConversation (persistConversation ts k)
      = if ts = [] then loadConversation k else ts := by
  by_cases h : ts = []
  · subst h
    simp [persistConversation, loadConversation]
  · have hlen : ts.length > 0 := List.length_pos.mpr h
    simp [persistConversation, hlen, loadConversation, h]

/-- The storage-state consistency invariant: decoding each durable key
yields exactly the in-memory sequence it mirrors. -/
def StorageConsistent (s : Session) : Prop :=
  loadConversation s.storage.conversationKey = s.conversation
  ∧ loadPDFs s.storage.pdfsKey = s.uploadedPDFs

theorem initSession_consistent (p : Persisted) :
    StorageConsistent (initSession p) := by
  constructor
  · show loadConversation
        (persistConversation (loadConversation p.conversationKey) p.conversationKey)
      = loadConversation p.conversationKey
    rw [loadConversation_persistConversation]
    split
    · rename_i hnil
      rw [hnil]
    · rfl
  · show loadPDFs (persistPDFs (loadPDFs p.pdfsKey) p.pdfsKey)
      = loadPDFs p.pdfsKey
    exact loadPDFs_persistPDFs _ _

theorem applyOp_consistent (s : Session) (op : SessionOp)
    (h : StorageConsistent s) : StorageConsistent (applyOp s op) := by
  obtain ⟨hc, hp⟩ := h
  cases op with
  | sendOp message outcome =>
      by_cases hb : jsTrim message = ""
      · simp only [applyOp, if_pos hb]
        exact ⟨hc, hp⟩
      · have hne : (send s.conversation s.uploadedPDFs message outcome).1 ≠ [] := by
          rw [send_fst_eq]
          simp [sendTurns, hb]
        constructor
        · simp only [applyOp, if_neg hb]
          rw [loadConversation_persistConversation, if_neg hne]
        · simp only [applyOp, if_neg hb]
          exact hp
  | clearConv =>
      constructor
      · show loadConversation (persistConversation [] none) = []
        rfl
      · exact hp
  | uploadOp files respond =>
      rcases hres : handleFileUpload s.uploadedPDFs files respond with ⟨newPDFs, err⟩
      cases err with
      | some e =>
          simp only [applyOp, hres]
          exact ⟨hc, hp⟩
      | none =>
          constructor
          · show loadConversation (applyOp s (.uploadOp files respond)).storage.conversationKey
              = (applyOp s (.uploadOp files respond)).conversation
            simp only [applyOp, hres]
            exact hc
          · show loadPDFs (applyOp s (.uploadOp files respond)).storage.pdfsKey
              = (applyOp s (.uploadOp files respond)).uploadedPDFs
            simp only [applyOp, hres]
            exact loadPDFs_persistPDFs _ _
  | removeOp index =>
      constructor
      · simp only [applyOp]
        exact hc
      · simp only [applyOp]
        exact loadPDFs_persistPDFs _ _
  | clearPDFs =>
      constructor
      · simp only [applyOp]
        exact hc
      · simp only [applyOp]
        rfl

theorem foldl_applyOp_consistent :
    ∀ (ops : List SessionOp) (s : Session), StorageConsistent s →
      StorageConsistent (ops.foldl applyOp s) := by
  intro ops
  induction ops with
  | nil => intro s h; exact h
  | cons op rest ih =>
      intro s h
      exact ih (applyOp s op) (applyOp_consistent s op h)

theorem runOps_consistent (p : Persisted) (ops : List SessionOp) :
    StorageConsistent (runOps p ops) :=
  foldl_applyOp_consistent ops (initSession p) (initSession_consistent p)

/-- Claim C9: after any session (mount from any storage contents, then
any sequence of operations) each durable key decodes to exactly the
in-memory sequence it mirrors, so a later load reconstructs the same
ordered sequence; in particular remounting from the current storage
(load, save, load again) reproduces both stores unchanged. -/
theorem C9_mutations_keep_storage_consistent (p : Persisted)
    (ops : List SessionOp) :
    loadConversation (runOps p ops).storage.conversationKey
      = (runOps p ops).conversation
    ∧ loadPDFs (runOps p ops).storage.pdfsKey = (runOps p ops).uploadedPDFs
    ∧ (initSession (runOps p ops).storage).conversation
      = (runOps p ops).conversation
    ∧ (initSession (runOps p ops).storage).uploadedPDFs
      = (runOps p ops).uploadedPDFs := by
  obtain ⟨hc, hp⟩ := runOps_consistent p ops
  exact ⟨hc, hp, hc, hp⟩

/-- Claim C10: sending with a blank draft (empty or whitespace-only) is a
complete no-op — the session state, both stores and durable storage
included, is unchanged and no request is issued; with a non-blank draft
the appended user turn carries the draft text trimmed of leading and
trailing whitespace. -/
theorem C10_blank_send_is_noop (s : Session) (message : String)
    (outcome : FetchOutcome) :
    (jsTrim message = "" →
      applyOp s (.sendOp message outcome) = s
      ∧ (send s.conversation s.uploadedPDFs message outcome).2 = none
      ∧ (send s.conversation s.uploadedPDFs message outcome).1 = s.conversation)
    ∧ (jsTrim message ≠ "" →
      (send s.conversation s.uploadedPDFs message outcome).1.take
          (s.conversation.length + 1)
        = s.conversation ++ [⟨"user", jsTrim message⟩]) := by
  constructor
  · intro hb
    refine ⟨by simp [applyOp, hb], by simp [send, hb], by simp [send, hb]⟩
  · intro hb
    rw [send_fst_eq]
    have hturns : sendTurns message outcome
        = ⟨"user", jsTrim message⟩ ::
            [match outcome with
             | .ok reply => (⟨"model", reply⟩ : Turn)
             | .httpError detail body => ⟨"error", "Error: " ++ jsOrElse detail body⟩
             | .exn m => ⟨"error", "Request failed: " ++ m⟩] := by
      simp [sendTurns, hb]
    rw [hturns]
    have hsplit : s.conversation ++ ⟨"user", jsTrim message⟩ ::
        [match outcome with
         | .ok reply => (⟨"model", reply⟩ : Turn)
         | .httpError detail body => ⟨"error", "Error: " ++ jsOrElse detail body⟩
         | .exn m => ⟨"error", "Request failed: " ++ m⟩]
        = (s.conversation ++ [⟨"user", jsTrim message⟩]) ++
            [match outcome with
             | .ok reply => (⟨"model", reply⟩ : Turn)
             | .httpError detail body => ⟨"error", "Error: " ++ jsOrElse detail body⟩
             | .exn m => ⟨"error", "Request failed: " ++ m⟩] := by
      simp
    rw [hsplit]
    have hlen : (s.conversation ++ [(⟨"user", jsTrim message⟩ : Turn)]).length
        = s.conversation.length + 1 := by simp
    rw [← hlen, List.take_left]

/-- Witness for C10 at concrete inputs: a whitespace-only draft is a
no-op; a padded draft appends the trimmed user turn. -/
theorem C10_blank_send_is_noop_witness :
    (applyOp ⟨[], [], ⟨none, none⟩⟩ (.sendOp "   " (.ok "r")) = ⟨[], [], ⟨none, none⟩⟩
      ∧ (send [] [] "   " (.ok "r")).2 = none
      ∧ (send [] [] "   " (.ok "r")).1 = [])
    ∧ (send [] [] " hi " (.ok "r")).1.take (List.length ([] : List Turn) + 1)
      = [] ++ [⟨"user", jsTrim " hi "⟩] :=
  ⟨(C10_blank_send_is_noop ⟨[], [], ⟨none, none⟩⟩ "   " (.ok "r")).1 (by decide),
   (C10_blank_send_is_noop ⟨[], [], ⟨none, none⟩⟩ " hi " (.ok "r")).2 (by decide)⟩
